import Mathlib

/-!
Verification of the event-loop visualizer's core: the step schema, the
runtime-model interpreter (`executeStep` / `goToStep`), the trace compiler
(`parseCustomCode` / `runCustomCode`) and the static example library, as a
shallow embedding of `src/components/EventLoopVisualizer.tsx`.

Strings are modelled by Lean `String` (in this toolchain a wrapper around
`List Char`); the JavaScript string operations used by the source
(`includes`, `trim`, `split`, `startsWith`, `substring`, character counting
and the handful of regular expressions) are embedded as executable functions
over `List Char`.  Brace characters inside string and character literals are
written with the `\x7b` / `\x7d` escapes.
-/

/-- The space characters relevant to the modelled sources; stands in for the
JavaScript `\s` class and `String.prototype.trim` (the sources only ever
contain ASCII whitespace). -/
def isSpaceChar (c : Char) : Bool :=
  c = ' ' || c = '\t' || c = '\n' || c = '\r'

/-- JavaScript `String.prototype.trim` on character lists. -/
def jsTrim (s : List Char) : List Char :=
  ((s.dropWhile isSpaceChar).reverse.dropWhile isSpaceChar).reverse

/-- JavaScript `String.prototype.split` with a single-character separator;
`splitOnChar c "a\nb"` is `["a","b"]`, and the empty string yields `[""]`. -/
def splitOnChar (c : Char) (s : List Char) : List (List Char) :=
  s.foldr
    (fun d acc =>
      if d = c then [] :: acc
      else
        match acc with
        | a :: as => (d :: a) :: as
        | [] => [[d]])
    [[]]

/-- If `p` is a leading segment of `s`, return the remainder. -/
def dropPref : List Char → List Char → Option (List Char)
  | [], s => some s
  | _ :: _, [] => none
  | p :: ps, c :: cs => if p = c then dropPref ps cs else none

/-- Boolean form of `dropPref`; JavaScript `String.prototype.startsWith`. -/
def hasPref (p s : List Char) : Bool :=
  (dropPref p s).isSome

/-- Every suffix of a list, longest first (the whole list down to `[]`). -/
def suffixes : List Char → List (List Char)
  | [] => [[]]
  | c :: cs => (c :: cs) :: suffixes cs

/-- JavaScript `String.prototype.includes`: `pat` occurs somewhere in `s`. -/
def jsIncludes (s pat : List Char) : Bool :=
  (suffixes s).any (fun t => hasPref pat t)

/-- Leftmost-match combinator: run the single-position matcher `f` at every
start position of the input, left to right, and return the first success.
This is how a JavaScript regex whose pattern starts with a literal scans. -/
def firstSome {α : Type} (f : List Char → Option α) : List Char → Option α
  | [] => f []
  | c :: cs =>
    match f (c :: cs) with
    | some r => some r
    | none => firstSome f cs

/-- The two JavaScript quote characters matched by the class `['"]`. -/
def isQuote (c : Char) : Bool :=
  c = '\x27' || c = '"'

/-- Single-position matcher for `console\.log\(\s*['"]([^'"]+)['"]\s*\)`
(the `simpleMatch` regex of `extractLogMessage`): returns the captured
message characters. -/
def simpleLogAt (s : List Char) : Option (List Char) :=
  match dropPref "console.log(".data s with
  | none => none
  | some rest =>
    match rest.dropWhile isSpaceChar with
    | [] => none
    | q :: rest2 =>
      if isQuote q then
        let msg := rest2.takeWhile (fun c => !(isQuote c))
        if msg.isEmpty then none
        else
          match rest2.drop msg.length with
          | [] => none
          | q2 :: rest3 =>
            if isQuote q2 then
              match rest3.dropWhile isSpaceChar with
              | ')' :: _ => some msg
              | _ => none
            else none
      else none

/-- Single-position matcher for `console\.log\(\s*['"]([^'"]+)['"]` (the
`mixedMatch` regex of `extractLogMessage`). -/
def mixedLogAt (s : List Char) : Option (List Char) :=
  match dropPref "console.log(".data s with
  | none => none
  | some rest =>
    match rest.dropWhile isSpaceChar with
    | [] => none
    | q :: rest2 =>
      if isQuote q then
        let msg := rest2.takeWhile (fun c => !(isQuote c))
        if msg.isEmpty then none
        else
          match rest2.drop msg.length with
          | [] => none
          | q2 :: _ => if isQuote q2 then some msg else none
      else none

/-- Single-position matcher for `console\.error\(\s*['"]([^'"]+)['"]` (the
`errorMatch` regex of `extractLogMessage`). -/
def errorLogAt (s : List Char) : Option (List Char) :=
  match dropPref "console.error(".data s with
  | none => none
  | some rest =>
    match rest.dropWhile isSpaceChar with
    | [] => none
    | q :: rest2 =>
      if isQuote q then
        let msg := rest2.takeWhile (fun c => !(isQuote c))
        if msg.isEmpty then none
        else
          match rest2.drop msg.length with
          | [] => none
          | q2 :: _ => if isQuote q2 then some msg else none
      else none

/-- The `extractLogMessage` helper of `parseCustomCode`. -/
def extractLogMessage (line : List Char) : String :=
  match firstSome simpleLogAt line with
  | some m => ⟨m⟩
  | none =>
    match firstSome mixedLogAt line with
    | some m => String.mk m ++ " [data]"
    | none =>
      match firstSome errorLogAt line with
      | some m => "Error: " ++ String.mk m
      | none => "output"

/-- One candidate split for the greedy `(.+)` of the regex
`console\.log\(['"](.+)['"]\)`: the capture is `rest.take k` provided it is
nonempty, contains no newline (`.` does not match line terminators), and is
followed by a quote character and a closing parenthesis. -/
def greedySplitOk (rest : List Char) (k : Nat) : Bool :=
  decide (1 ≤ k) && !((rest.take k).contains '\n') &&
    (match rest.drop k with
     | q :: ')' :: _ => isQuote q
     | _ => false)

/-- Greedy capture for `(.+)['"]\)`: the longest admissible split, mirroring
regex backtracking which tries the longest capture first. -/
def greedyCapture (rest : List Char) : Option (List Char) :=
  match (List.range (rest.length + 1)).reverse.find? (greedySplitOk rest) with
  | some k => some (rest.take k)
  | none => none

/-- Single-position matcher for `console\.log\(['"](.+)['"]\)` (the
`callbackMatch` regex used by the `setTimeout` and `Promise` branches). -/
def callbackLogAt (s : List Char) : Option (List Char) :=
  match dropPref "console.log(".data s with
  | none => none
  | some rest =>
    match rest with
    | [] => none
    | q :: rest2 => if isQuote q then greedyCapture rest2 else none

/-- The whole `callbackMatch` search: leftmost occurrence wins. -/
def callbackMatch (line : List Char) : Option String :=
  (firstSome callbackLogAt line).map (fun m => String.mk m)

/-- One candidate split for the greedy `.+` of
`setTimeout\(.+,\s*(\d+)\)`: returns the captured digit run when the
remainder after the split is `,` `\s*` `(\d+)` `)`. -/
def delaySplitOk (rest : List Char) (k : Nat) : Option (List Char) :=
  if k < 1 then none
  else if (rest.take k).contains '\n' then none
  else
    match rest.drop k with
    | ',' :: w =>
      let w2 := w.dropWhile isSpaceChar
      let ds := w2.takeWhile Char.isDigit
      if ds.isEmpty then none
      else
        match w2.drop ds.length with
        | ')' :: _ => some ds
        | _ => none
    | _ => none

/-- Single-position matcher for `setTimeout\(.+,\s*(\d+)\)` (the
`delayMatch` regex): greedy `.+`, so the longest split is tried first. -/
def setTimeoutDelayAt (s : List Char) : Option (List Char) :=
  match dropPref "setTimeout(".data s with
  | none => none
  | some rest =>
    (List.range (rest.length + 1)).reverse.findSome? (delaySplitOk rest)

/-- `parseInt` on a run of decimal digits. -/
def digitsToNat (ds : List Char) : Nat :=
  ds.foldl (fun n c => 10 * n + (c.toNat - '0'.toNat)) 0

/-- The parsed delay of a `setTimeout` line:
`delayMatch ? parseInt(delayMatch[1], 10) : 0`. -/
def delayOf (line : List Char) : Nat :=
  match firstSome setTimeoutDelayAt line with
  | some ds => digitsToNat ds
  | none => 0

/-- Single-position matcher for `fetch\(\s*['"]([^'"]+)['"]\s*\)` (the
`urlMatch` regex of the fetch branch). -/
def fetchUrlAt (s : List Char) : Option (List Char) :=
  match dropPref "fetch(".data s with
  | none => none
  | some rest =>
    match rest.dropWhile isSpaceChar with
    | [] => none
    | q :: rest2 =>
      if isQuote q then
        let msg := rest2.takeWhile (fun c => !(isQuote c))
        if msg.isEmpty then none
        else
          match rest2.drop msg.length with
          | [] => none
          | q2 :: rest3 =>
            if isQuote q2 then
              match rest3.dropWhile isSpaceChar with
              | ')' :: _ => some msg
              | _ => none
            else none
      else none

/-- The `urlMatch` search over the whole source text. -/
def urlMatch (code : List Char) : Option String :=
  (firstSome fetchUrlAt code).map (fun m => String.mk m)

/-- The `countChar` helper of `parseCustomCode`:
`(value.match(new RegExp('\\' + char, 'g')) || []).length`. -/
def countChar (value : List Char) (char : Char) : Nat :=
  value.count char

/-- JavaScript `substring(0, n)` on character lists, as a `String`. -/
def substrTo (s : List Char) (n : Nat) : String :=
  ⟨s.take n⟩

/-- `ExecutionStep` (the `Step` interface): one atomic transition.  The
`from` field of the source is called `srcFrom` here (`from` is a Lean
keyword). -/
structure Step where
  action : String
  item : Option String := none
  execute : Option Bool := none
  line : Option Nat := none
  message : Option String := none
  srcFrom : Option String := none
  callback : Option String := none
  explanation : Option String := none
deriving Repr, DecidableEq

/-- The `WebAPIItem` interface. -/
structure WebAPIItem where
  label : String
  callback : String
deriving Repr, DecidableEq

/-- An `Example`: a named snippet with its pre-computed step sequence. -/
structure Example where
  name : String
  description : String
  code : String
  steps : List Step
deriving Repr, DecidableEq

/-- The runtime-model state reconstructed by replay: the React state
variables `callStack`, `taskQueue`, `microTaskQueue`, `webAPIs`, `logs`,
`highlightedLine`, `currentExplanation` and `eventLoopCycles`. -/
structure ModelState where
  callStack : List String
  taskQueue : List String
  microTaskQueue : List String
  webAPIs : List WebAPIItem
  logs : List String
  highlightedLine : Option Nat
  currentExplanation : String
  eventLoopCycles : Nat
deriving Repr, DecidableEq

/-- The `executeStep` transition.  All queue updates in the source use
functional `setX(prev => ...)` updaters, which act on the accumulated state
`s`; but the two guards `if (microTaskQueue.length > 0)` and
`if (taskQueue.length > 0)` read the plain state variables of the render in
which the handler closure was created — during a synchronous batch replay
these hold the component state from before the replay started.  That
closed-over state is the `snapshot` argument.  The trailing `!` non-null
assertions of the source are modelled by `Option.getD "undefined"` (in
JavaScript a missing field would push `undefined`). -/
def executeStep (snapshot : ModelState) (s : ModelState) (step : Step) : ModelState :=
  let s :=
    match step.line with
    | some l => { s with highlightedLine := some l }
    | none => s
  let s :=
    match step.explanation with
    | some e => if e = "" then s else { s with currentExplanation := e }
    | none => s
  match step.action with
  | "addToStack" => { s with callStack := s.callStack ++ [step.item.getD "undefined"] }
  | "removeFromStack" => { s with callStack := s.callStack.dropLast }
  | "addToWebAPI" =>
      { s with webAPIs := s.webAPIs ++ [⟨step.item.getD "undefined", step.callback.getD "undefined"⟩] }
  | "moveToTaskQueue" =>
      { s with webAPIs := s.webAPIs.drop 1,
               taskQueue := s.taskQueue ++ [step.callback.getD "undefined"] }
  | "addToMicroTask" => { s with microTaskQueue := s.microTaskQueue ++ [step.item.getD "undefined"] }
  | "processMicroTasks" =>
      if snapshot.microTaskQueue.length > 0 then
        { s with microTaskQueue := s.microTaskQueue.drop 1 }
      else s
  | "checkEventLoop" =>
      let s :=
        if snapshot.taskQueue.length > 0 then { s with taskQueue := s.taskQueue.drop 1 } else s
      { s with eventLoopCycles := s.eventLoopCycles + 1 }
  | "log" => { s with logs := s.logs ++ [step.message.getD "undefined"] }
  | _ => s

/-- The state produced by `reset()`: empty stack, queues, registry and log,
no highlighted line, the initial explanation, zero cycles. -/
def initialState : ModelState :=
  { callStack := []
    taskQueue := []
    microTaskQueue := []
    webAPIs := []
    logs := []
    highlightedLine := none
    currentExplanation := "Click \"Start\" or \"Next\" to begin stepping through the code execution."
    eventLoopCycles := 0 }

/-- `goToStep(stepNumber)`: `reset()` followed by `executeStep` on every step
before `stepNumber`.  The whole loop runs inside one event handler, so every
guard in `executeStep` reads the same pre-call `snapshot`. -/
def goToStep (snapshot : ModelState) (steps : List Step) (stepNumber : Nat) : ModelState :=
  (steps.take stepNumber).foldl (executeStep snapshot) initialState

/-- Whether a pending callback registers a macrotask (`'task'`, from
`setTimeout`) or a microtask (`'microtask'`, from `Promise.resolve().then`). -/
inductive CallbackKind where
  | task
  | microtask
deriving Repr, DecidableEq

/-- A `pendingTasks` entry of the line scan. -/
structure PendingTask where
  line : Nat
  delay : Nat
  callback : String
  messages : List String
deriving Repr, DecidableEq

/-- A `pendingMicrotasks` entry of the line scan. -/
structure PendingMicro where
  line : Nat
  callback : String
  messages : List String
deriving Repr, DecidableEq

/-- The `activeCallback` cursor used while collecting a multi-line callback
body. -/
structure ActiveCallback where
  kind : CallbackKind
  line : Nat
  delay : Nat
  messages : List String
  callback : String
deriving Repr, DecidableEq

/-- The mutable state of the line-scan loop of `parseCustomCode`: the steps
emitted so far, the two buckets, the body cursor and the brace depth (a
JavaScript number, so an `Int`). -/
structure ScanState where
  steps : List Step
  pendingTasks : List PendingTask
  pendingMicrotasks : List PendingMicro
  active : Option ActiveCallback
  callbackDepth : Int
deriving Repr, DecidableEq

/-- The three steps emitted for a synchronous logging line. -/
def syncLogSteps (trimmedLine : List Char) (lineNum : Nat) : List Step :=
  let message := extractLogMessage trimmedLine
  [ { action := "addToStack",
      item := some (substrTo trimmedLine 50 ++ (if trimmedLine.length > 50 then "..." else "")),
      execute := some true, line := some lineNum,
      explanation := some ("Executing: " ++ String.mk trimmedLine) },
    { action := "log", message := some message,
      explanation := some ("Output: " ++ message) },
    { action := "removeFromStack", explanation := some "Removed from call stack" } ]

/-- The three steps emitted when a `setTimeout` registration is seen. -/
def setTimeoutSteps (delay : Nat) (callback : String) (lineNum : Nat) : List Step :=
  [ { action := "addToStack", item := some ("setTimeout(cb, " ++ toString delay ++ ")"),
      execute := some false, line := some lineNum,
      explanation := some ("Registering setTimeout with " ++ toString delay ++ "ms delay") },
    { action := "addToWebAPI", item := some ("Timer: " ++ toString delay ++ "ms"),
      callback := some callback, explanation := some "Timer started in Web APIs" },
    { action := "removeFromStack", explanation := some "setTimeout registration complete" } ]

/-- The three steps emitted when a `Promise.resolve().then` registration is
seen. -/
def promiseSteps (callback : String) (lineNum : Nat) : List Step :=
  [ { action := "addToStack", item := some "Promise.resolve()", execute := some false,
      line := some lineNum, explanation := some "Creating resolved Promise" },
    { action := "addToMicroTask", item := some callback,
      explanation := some "Promise callback added to Microtask Queue (high priority!)" },
    { action := "removeFromStack", explanation := some "Promise setup complete" } ]

/-- The `callback` local of the `setTimeout` branch:
`callbackMatch ? console.log("...") : 'setTimeout callback'`. -/
def setTimeoutCallbackOf (tl : List Char) : String :=
  match callbackMatch tl with
  | some m => "console.log(\"" ++ m ++ "\")"
  | none => "setTimeout callback"

/-- The `callback` local of the `Promise.resolve().then` branch. -/
def promiseCallbackOf (tl : List Char) : String :=
  match callbackMatch tl with
  | some m => "console.log(\"" ++ m ++ "\")"
  | none => "promise callback"

/-- The initial `messages` of a registration: the inline-matched log message
if any (`if (callbackMatch) activeCallback.messages.push(...)`). -/
def cbMessagesOf (tl : List Char) : List String :=
  match callbackMatch tl with
  | some m => [m]
  | none => []

/-- Closing logic shared by the body-collection cursor: when the brace depth
has returned to `≤ 0`, flush the active callback into its bucket; otherwise
keep collecting. -/
def processActiveClose (st : ScanState) (ac : ActiveCallback) (depth : Int) : ScanState :=
  if depth ≤ 0 then
    match ac.kind with
    | CallbackKind.task =>
      { st with
          pendingTasks := st.pendingTasks ++ [⟨ac.line, ac.delay, ac.callback, ac.messages⟩],
          active := none, callbackDepth := 0 }
    | CallbackKind.microtask =>
      { st with
          pendingMicrotasks := st.pendingMicrotasks ++ [⟨ac.line, ac.callback, ac.messages⟩],
          active := none, callbackDepth := 0 }
  else { st with active := some ac, callbackDepth := depth }

/-- Handling of a line while a callback body is being collected: capture any
log message into the active callback, update the brace depth, and close the
body if the depth drops to `≤ 0`. -/
def processActive (st : ScanState) (ac : ActiveCallback) (trimmedLine : List Char) : ScanState :=
  processActiveClose st
    (if jsIncludes trimmedLine "console.log".data || jsIncludes trimmedLine "console.error".data then
       { ac with messages := ac.messages ++ [extractLogMessage trimmedLine] }
     else ac)
    (st.callbackDepth + (countChar trimmedLine '\x7b' : Int) - (countChar trimmedLine '\x7d' : Int))

/-- The bucket/cursor update at the end of the `setTimeout` branch: an
opening brace either closes immediately on the same line or switches into
body collection; an inline callback registers directly. -/
def setTimeoutBlock (st : ScanState) (tl : List Char) (lineNum : Nat) : ScanState :=
  if jsIncludes tl "\x7b".data then
    if ((countChar tl '\x7b' : Int) - (countChar tl '\x7d' : Int)) ≤ 0 then
      { st with
          pendingTasks := st.pendingTasks ++
            [⟨lineNum, delayOf tl, setTimeoutCallbackOf tl, cbMessagesOf tl⟩],
          active := none, callbackDepth := 0 }
    else
      { st with
          active := some ⟨CallbackKind.task, lineNum, delayOf tl, cbMessagesOf tl, setTimeoutCallbackOf tl⟩,
          callbackDepth := (countChar tl '\x7b' : Int) - (countChar tl '\x7d' : Int) }
  else
    { st with
        pendingTasks := st.pendingTasks ++
          [⟨lineNum, delayOf tl, setTimeoutCallbackOf tl, cbMessagesOf tl⟩] }

/-- The bucket/cursor update at the end of the `Promise.resolve().then`
branch. -/
def promiseBlock (st : ScanState) (tl : List Char) (lineNum : Nat) : ScanState :=
  if jsIncludes tl "\x7b".data then
    if ((countChar tl '\x7b' : Int) - (countChar tl '\x7d' : Int)) ≤ 0 then
      { st with
          pendingMicrotasks := st.pendingMicrotasks ++
            [⟨lineNum, promiseCallbackOf tl, cbMessagesOf tl⟩],
          active := none, callbackDepth := 0 }
    else
      { st with
          active := some ⟨CallbackKind.microtask, lineNum, 0, cbMessagesOf tl, promiseCallbackOf tl⟩,
          callbackDepth := (countChar tl '\x7b' : Int) - (countChar tl '\x7d' : Int) }
  else
    { st with
        pendingMicrotasks := st.pendingMicrotasks ++
          [⟨lineNum, promiseCallbackOf tl, cbMessagesOf tl⟩] }

/-- Handling of a top-level line (no callback body being collected): the
branch chain of the source, in order — blank/comment skip, then logging
(tested first!), then `setTimeout`, then `Promise.resolve().then`, then
silent skip. -/
def processTop (st : ScanState) (trimmedLine : List Char) (lineNum : Nat) : ScanState :=
  if trimmedLine.isEmpty || hasPref "//".data trimmedLine then st
  else if jsIncludes trimmedLine "console.log".data || jsIncludes trimmedLine "console.error".data then
    { st with steps := st.steps ++ syncLogSteps trimmedLine lineNum }
  else if jsIncludes trimmedLine "setTimeout".data then
    setTimeoutBlock
      { st with steps := st.steps ++ setTimeoutSteps (delayOf trimmedLine) (setTimeoutCallbackOf trimmedLine) lineNum }
      trimmedLine lineNum
  else if jsIncludes trimmedLine "Promise.resolve()".data && jsIncludes trimmedLine ".then".data then
    promiseBlock
      { st with steps := st.steps ++ promiseSteps (promiseCallbackOf trimmedLine) lineNum }
      trimmedLine lineNum
  else st

/-- One iteration of the `lines.forEach` body of the non-fetch line scan. -/
def processLine (st : ScanState) (p : Nat × List Char) : ScanState :=
  match st.active with
  | some ac => processActive st ac (jsTrim p.2)
  | none => processTop st (jsTrim p.2) (p.1 + 1)

/-- The whole line scan: fold `processLine` over the numbered lines. -/
def scanLines (lines : List (List Char)) : ScanState :=
  (lines.enum).foldl processLine ⟨[], [], [], none, 0⟩

/-- The comparator `(a, b) => a.delay - b.delay || a.line - b.line` as a
non-strict order: `a` may stay before `b`. -/
def taskLe (a b : PendingTask) : Bool :=
  decide (a.delay < b.delay) || (decide (a.delay = b.delay) && decide (a.line ≤ b.line))

/-- Insert into a sorted list, keeping earlier-inserted equal keys first. -/
def orderedInsertTask (a : PendingTask) : List PendingTask → List PendingTask
  | [] => [a]
  | b :: l => if taskLe a b then a :: b :: l else b :: orderedInsertTask a l

/-- `[...pendingTasks].sort((a, b) => a.delay - b.delay || a.line - b.line)`.
JavaScript `Array.prototype.sort` is stable and this comparator is a total
preorder, so the result is the unique stable order; insertion sort with
`taskLe` (which keeps the earlier element first on ties) computes exactly
that. -/
def sortTasks : List PendingTask → List PendingTask
  | [] => []
  | a :: l => orderedInsertTask a (sortTasks l)

/-- The per-message (or bare) execution steps replayed for one drained
microtask registration. -/
def microBody (t : PendingMicro) : List Step :=
  if t.messages.isEmpty then
    [ { action := "addToStack", item := some t.callback, execute := some true,
        line := some t.line, explanation := some ("Executing microtask: " ++ t.callback) },
      { action := "removeFromStack", explanation := some "Microtask complete" } ]
  else
    (t.messages.map (fun m =>
      [ { action := "addToStack", item := some ("console.log(\"" ++ m ++ "\")"),
          execute := some true, line := some t.line,
          explanation := some ("Executing microtask: console.log(\"" ++ m ++ "\")") },
        { action := "log", message := some m, explanation := some ("Output: " ++ m) },
        ({ action := "removeFromStack", explanation := some "Microtask complete" } : Step) ])).flatten

/-- The microtask section emitted after the line scan. -/
def microSection (ms : List PendingMicro) : List Step :=
  if ms.isEmpty then []
  else
    [ { action := "checkEventLoop",
        explanation := some "Call Stack empty → Event Loop processes Microtask Queue first" },
      { action := "processMicroTasks",
        explanation := some "Processing microtasks (Promises have higher priority)" } ]
    ++ (ms.map microBody).flatten

/-- The per-message (or bare) execution steps for one promoted macrotask. -/
def taskBody (t : PendingTask) : List Step :=
  if t.messages.isEmpty then
    [ { action := "addToStack", item := some t.callback, execute := some true,
        line := some t.line, explanation := some ("Executing callback: " ++ t.callback) },
      { action := "removeFromStack", explanation := some "Callback complete" } ]
  else
    (t.messages.map (fun m =>
      [ { action := "addToStack", item := some ("console.log(\"" ++ m ++ "\")"),
          execute := some true, line := some t.line,
          explanation := some ("Executing callback: console.log(\"" ++ m ++ "\")") },
        { action := "log", message := some m, explanation := some ("Output: " ++ m) },
        ({ action := "removeFromStack", explanation := some "Callback complete" } : Step) ])).flatten

/-- The promotion step emitted for one macrotask registration. -/
def promoteStepOf (t : PendingTask) : Step :=
  { action := "moveToTaskQueue", srcFrom := some "webAPI", callback := some t.callback,
    line := some t.line, explanation := some "Timer completed, callback moved to Task Queue" }

/-- The four-or-more steps emitted for one macrotask registration. -/
def taskBlock (t : PendingTask) : List Step :=
  promoteStepOf t
    :: { action := "checkEventLoop",
         explanation := some "Event Loop picks next task from Task Queue" }
    :: taskBody t

/-- The macrotask section emitted after the line scan: registrations sorted
by `(delay, line)`, each yielding a promote / cycle / body block. -/
def macroSection (ts : List PendingTask) : List Step :=
  if ts.isEmpty then []
  else ((sortTasks ts).map taskBlock).flatten

/-- The first three fixed steps of the fetch branch. -/
def fetchHead (url : String) : List Step :=
  [ { action := "addToStack",
      item := some ("fetch(\"" ++ substrTo url.data 30 ++ (if url.length > 30 then "..." else "") ++ "\")"),
      execute := some false, line := some 1,
      explanation := some ("Initiating fetch request to "
        ++ substrTo url.data 50 ++ (if url.length > 50 then "..." else "")) },
    { action := "addToWebAPI", item := some "fetch() → Pending...",
      callback := some ".then() callbacks",
      explanation := some "Fetch request is handled by Web APIs (browser makes HTTP request)" },
    { action := "removeFromStack",
      explanation := some "fetch() returns immediately with a Promise, continues to next line" } ]

/-- The synchronous-log steps of the fetch branch, one triple per line whose
trimmed text starts with `console.log` and contains neither `.then` nor
`=>`. -/
def fetchSyncSteps (lines : List (List Char)) : List Step :=
  ((lines.enum.filterMap (fun p =>
      let trimmed := jsTrim p.2
      if hasPref "console.log".data trimmed
          && !(jsIncludes trimmed ".then".data) && !(jsIncludes trimmed "=>".data) then
        some (p.1 + 1, extractLogMessage trimmed)
      else none)).map (fun p =>
    [ { action := "addToStack", item := some ("console.log(\"" ++ p.2 ++ "\")"),
        execute := some true, line := some p.1,
        explanation := some "Synchronous code executes immediately while fetch is pending" },
      { action := "log", message := some p.2, explanation := some ("Output: " ++ p.2) },
      ({ action := "removeFromStack", explanation := some "console.log complete" } : Step) ])).flatten

/-- The single promotion step of the fetch branch. -/
def fetchPromoteStep : Step :=
  { action := "moveToTaskQueue", srcFrom := some "webAPI",
    callback := some "response => response.json()",
    explanation := some "Fetch completed! First .then() callback added to Microtask Queue" }

/-- The fixed tail of the fetch branch after the promotion step. -/
def fetchTail : List Step :=
  [ { action := "addToMicroTask", item := some "response.json()",
      explanation := some "response.json() returns another Promise (also async!)" },
    { action := "checkEventLoop",
      explanation := some "Call Stack empty → Event Loop processes Microtask Queue" },
    { action := "processMicroTasks",
      explanation := some "Processing microtasks (Promises have high priority!)" },
    { action := "addToStack", item := some "response.json()", execute := some true,
      line := some 2, explanation := some "Parsing JSON response" },
    { action := "removeFromStack", explanation := some "JSON parsing complete, queues next .then()" },
    { action := "addToMicroTask", item := some "data => console.log(...)",
      explanation := some "Next .then() callback added to Microtask Queue" },
    { action := "processMicroTasks", explanation := some "Processing next microtask" },
    { action := "addToStack", item := some "console.log(\"Data received:\", data)",
      execute := some true, line := some 3,
      explanation := some "Executing callback with the fetched data" },
    { action := "log",
      message := some "Data received: \x7b userId: 1, id: 1, title: \"...\", completed: false \x7d",
      explanation := some "Data from API is now available!" },
    { action := "removeFromStack", explanation := some "All callbacks complete!" } ]

/-- The whole fetch-mode step sequence.  (The source also collects the
`.then` callback texts into a `thenCallbacks` array via the `thenMatches`
regex, but that array is never read afterwards, so it has no observable
effect and is not modelled.) -/
def fetchSteps (fullCode : List Char) (lines : List (List Char)) : List Step :=
  let url := (urlMatch fullCode).getD "API endpoint"
  (fetchHead url ++ fetchSyncSteps lines ++ [fetchPromoteStep]) ++ fetchTail

/-- The trimmed source split into lines:
`const lines = code.trim().split('\n')`. -/
def jsLines (code : String) : List (List Char) :=
  splitOnChar '\n' (jsTrim code.data)

/-- `const hasFetch = fullCode.includes('fetch(')`. -/
def hasFetchB (code : String) : Bool :=
  jsIncludes (jsTrim code.data) "fetch(".data

/-- The `pendingTasks` bucket the line scan produces for a source text. -/
def scanTasks (code : String) : List PendingTask :=
  (scanLines (jsLines code)).pendingTasks

/-- The `pendingMicrotasks` bucket the line scan produces for a source
text. -/
def scanMicros (code : String) : List PendingMicro :=
  (scanLines (jsLines code)).pendingMicrotasks

/-- The full step sequence `parseCustomCode` builds for a source text
(before the zero-step check). -/
def parseSteps (code : String) : List Step :=
  if hasFetchB code then fetchSteps (jsTrim code.data) (jsLines code)
  else
    let sc := scanLines (jsLines code)
    sc.steps ++ (microSection sc.pendingMicrotasks ++ macroSection sc.pendingTasks)

/-- The error message set when no step was produced. -/
def noPatternMsg : String :=
  "No valid JavaScript detected. Try adding console.log(), setTimeout(), fetch(), or Promise.resolve().then()"

/-- `parseCustomCode`: the compiled `Example`, or the `codeError` reason when
zero steps were produced (`return null`). -/
def parseCustomCode (code : String) : Except String Example :=
  let steps := parseSteps code
  if steps.isEmpty then Except.error noPatternMsg
  else Except.ok { name := "Custom Code", description := "Your custom example", code := code, steps := steps }

/-- `runCustomCode`: returns the new `customExample` state together with the
`codeError` message, starting from the previously stored example.  On any
failure the stored example is returned unchanged. -/
def runCustomCode (customCode : String) (customExample : Example) : Example × Option String :=
  if (jsTrim customCode.data).isEmpty then (customExample, some "Please enter some code first!")
  else
    match parseCustomCode customCode with
    | Except.error e => (customExample, some e)
    | Except.ok parsed => (parsed, none)

/-- The initial `customExample` React state. -/
def defaultCustomExample : Example :=
  { name := "Custom Code", description := "Your custom example", code := "", steps := [] }

/-- The authored `requestAnimationFrame` example's step sequence
(`examples.requestAnimationFrame.steps`). -/
def requestAnimationFrameSteps : List Step :=
  [ { action := "addToStack", item := some "console.log(\"Animation start\")", execute := some true,
      line := some 1, explanation := some "Starting an animation using requestAnimationFrame (RAF)." },
    { action := "log", message := some "Animation start", explanation := some "Output: Animation start" },
    { action := "removeFromStack", explanation := some "Console.log completes." },
    { action := "addToStack", item := some "requestAnimationFrame(animate)", execute := some false,
      line := some 11,
      explanation := some "RAF schedules a callback to run before the next repaint (~60fps = every 16ms)." },
    { action := "addToWebAPI", item := some "RAF: animate (Frame 0)", callback := some "animate()",
      explanation := some "Browser schedules animate() to run before next paint. Different queue than setTimeout!" },
    { action := "removeFromStack", explanation := some "RAF registration complete." },
    { action := "addToStack", item := some "console.log(\"Scheduled\")", execute := some true,
      line := some 12, explanation := some "Synchronous code continues immediately." },
    { action := "log", message := some "Scheduled",
      explanation := some "Output: Scheduled. Animation callback will run on next frame." },
    { action := "removeFromStack",
      explanation := some "All sync code done. Browser will call our callback before painting..." },
    { action := "moveToTaskQueue", srcFrom := some "webAPI", callback := some "animate()",
      line := some 4,
      explanation := some "🎬 Browser ready to paint! RAF callback fires (typically after ~16ms for 60fps)." },
    { action := "checkEventLoop", explanation := some "Event Loop executes the animation frame callback." },
    { action := "addToStack", item := some "console.log(\"Frame 0\")", execute := some true,
      line := some 5, explanation := some "First frame renders. count is 0." },
    { action := "log", message := some "Frame 0", explanation := some "Output: Frame 0. First animation frame!" },
    { action := "removeFromStack", explanation := some "Console.log done." },
    { action := "addToStack", item := some "requestAnimationFrame(animate)", execute := some false,
      line := some 7, explanation := some "Scheduling the next frame. count is now 1." },
    { action := "addToWebAPI", item := some "RAF: animate (Frame 1)", callback := some "animate()",
      explanation := some "Second frame scheduled." },
    { action := "removeFromStack", explanation := some "RAF scheduled." },
    { action := "moveToTaskQueue", srcFrom := some "webAPI", callback := some "animate()",
      line := some 4, explanation := some "🎬 ~16ms later, next frame ready!" },
    { action := "checkEventLoop", explanation := some "Second frame callback executes." },
    { action := "addToStack", item := some "console.log(\"Frame 1\")", execute := some true,
      line := some 5, explanation := some "Second frame renders. count is 1." },
    { action := "log", message := some "Frame 1", explanation := some "Output: Frame 1" },
    { action := "removeFromStack", explanation := some "Frame 1 done." },
    { action := "addToStack", item := some "requestAnimationFrame(animate)", execute := some false,
      line := some 7, explanation := some "Scheduling third and final frame. count is now 2." },
    { action := "addToWebAPI", item := some "RAF: animate (Frame 2)", callback := some "animate()",
      explanation := some "Final frame scheduled." },
    { action := "removeFromStack", explanation := some "RAF scheduled." },
    { action := "moveToTaskQueue", srcFrom := some "webAPI", callback := some "animate()",
      line := some 4, explanation := some "🎬 Third frame ready!" },
    { action := "checkEventLoop", explanation := some "Final frame callback executes." },
    { action := "addToStack", item := some "console.log(\"Frame 2\")", execute := some true,
      line := some 5, explanation := some "Final frame renders. count is 2." },
    { action := "log", message := some "Frame 2", explanation := some "Output: Frame 2" },
    { action := "removeFromStack", explanation := some "Last frame complete." },
    { action := "removeFromStack",
      explanation := some "Animation complete! RAF is ideal for smooth 60fps animations." } ]

/-- Number of steps in a list with the given `action`. -/
def countAction (a : String) (l : List Step) : Nat :=
  l.countP (fun s => s.action == a)

/-- The `line` fields of the `moveToTaskQueue` steps of a compile, in
emission order. -/
def promoteLines (code : String) : List (Option Nat) :=
  ((parseSteps code).filter (fun s => s.action == "moveToTaskQueue")).map (fun s => s.line)

/-- The compiler-coverage scenario input of the specification (§8): one-line
`setTimeout` and `Promise.resolve().then` registrations between two
synchronous logs. -/
def coverageScenarioInput : String :=
  "console.log(\"Start\");\nsetTimeout(() => \x7b console.log(\"Timeout\"); \x7d, 0);\nPromise.resolve().then(() => \x7b console.log(\"Promise\"); \x7d);\nconsole.log(\"End\");"

/-- A multi-line snippet with one promise registration and one timer
registration, in the form the line scan recognizes. -/
def promiseTimerInput : String :=
  "Promise.resolve().then(() => \x7b\n  console.log(\"P\");\n\x7d);\nsetTimeout(() => \x7b\n  console.log(\"T\");\n\x7d, 0);"

/-- A minimal fetch-mode input. -/
def fetchOnlyInput : String :=
  "fetch('/api/data')"

/-- Two timer registrations with delays 100 then 0, in source order. -/
def delayOrderInput : String :=
  "setTimeout(cbA, 100);\nsetTimeout(cbB, 0);"

/-- A timer registration that is cancelled (cleared and re-registered to the
same binding) before any log line fires, followed by the replacement
registration. -/
def cancellationInput : String :=
  "timeout = setTimeout(cb, 300);\nclearTimeout(timeout);\ntimeout = setTimeout(cb2, 300);"

/-- An input with no recognized construct: a single comment line. -/
def commentOnlyInput : String :=
  "// just a comment"

/-- A bare `removeFromStack` step. -/
def bareRemoveStep : Step :=
  { action := "removeFromStack" }

/-- The comparator of `sortTasks` as a propositional relation: strictly
smaller delay, or equal delay and no larger source line. -/
def taskRel (a b : PendingTask) : Prop :=
  a.delay < b.delay ∨ (a.delay = b.delay ∧ a.line ≤ b.line)

/-- The actions a step emitted during the line scan itself can carry. -/
def scanEmitted (s : Step) : Prop :=
  s.action = "addToStack" ∨ s.action = "log" ∨ s.action = "removeFromStack" ∨
    s.action = "addToWebAPI" ∨ s.action = "addToMicroTask"

/-- Claim C1: compiling the four-line `Start` / `Timeout` / `Promise` / `End`
snippet succeeds, but replaying all of its steps yields the console log
`["Start", "Timeout", "Promise", "End"]`, not the claimed
`["Start", "End", "Promise", "Timeout"]`: the compiler's
`includes('console.log')` branch is tested before the `setTimeout` and
`Promise.resolve` branches, so each one-line registration is emitted as a
synchronous log. -/
theorem c1_coverage_scenario_divergence :
    (parseCustomCode coverageScenarioInput).toOption.isSome = true ∧
    (goToStep initialState (parseSteps coverageScenarioInput)
        (parseSteps coverageScenarioInput).length).logs
      = ["Start", "Timeout", "Promise", "End"] ∧
    ¬ (goToStep initialState (parseSteps coverageScenarioInput)
        (parseSteps coverageScenarioInput).length).logs
      = ["Start", "End", "Promise", "Timeout"] := by
  refine ⟨by decide, by decide, by decide⟩

/-- Claim C3: the authored `requestAnimationFrame` example violates stack
balance: it contains 8 `addToStack` steps but 9 `removeFromStack` steps, and
its final step is a `removeFromStack` executed when the modeled stack is
already empty. -/
theorem c3_raf_stack_imbalance :
    countAction "addToStack" requestAnimationFrameSteps = 8 ∧
    countAction "removeFromStack" requestAnimationFrameSteps = 9 ∧
    requestAnimationFrameSteps.length = 31 ∧
    (goToStep initialState requestAnimationFrameSteps 30).callStack = [] ∧
    countAction "removeFromStack" (requestAnimationFrameSteps.drop 30) = 1 := by
  refine ⟨by decide, by decide, by decide, by decide, by decide⟩

/-- Claim C4, counterexample: in the compiler's own fetch-mode output the
`moveToTaskQueue` step at index 3 removes the registry entry whose stored
callback is `".then() callbacks"`, yet the value appended to the macrotask
queue is the step's own callback `"response => response.json()"` — not the
removed entry's callback. -/
theorem c4_counterexample :
    (goToStep initialState (parseSteps fetchOnlyInput) 3).webAPIs
      = [⟨"fetch() → Pending...", ".then() callbacks"⟩] ∧
    (((parseSteps fetchOnlyInput).drop 3).map (fun s => s.action)).take 1
      = ["moveToTaskQueue"] ∧
    (goToStep initialState (parseSteps fetchOnlyInput) 4).taskQueue
      = ["response => response.json()"] ∧
    ¬ (goToStep initialState (parseSteps fetchOnlyInput) 4).taskQueue
      = [".then() callbacks"] := by
  refine ⟨by decide, by decide, by decide, by decide⟩

/-- Claim C4, amended: applying a `moveToTaskQueue` step removes the first
entry of `webAPIs` and appends the step's own `callback` field to the
macrotask queue; the appended value coincides with the removed entry's
stored callback only when the step sequence keeps the two in sync. -/
theorem c4_amended (snapshot s : ModelState) (step : Step)
    (h : step.action = "moveToTaskQueue") :
    (executeStep snapshot s step).webAPIs = s.webAPIs.drop 1 ∧
    (executeStep snapshot s step).taskQueue
      = s.taskQueue ++ [step.callback.getD "undefined"] := by
  unfold executeStep
  rw [h]
  cases step.line <;> cases step.explanation <;> simp <;> split <;> simp

/-- Witness for the amended C4 at a concrete state and step. -/
theorem c4_amended_witness :
    (executeStep initialState
        { initialState with webAPIs := [⟨"Timer: 0ms", "cbB"⟩], taskQueue := ["old"] }
        { action := "moveToTaskQueue", callback := some "cbA" }).webAPIs = [] ∧
    (executeStep initialState
        { initialState with webAPIs := [⟨"Timer: 0ms", "cbB"⟩], taskQueue := ["old"] }
        { action := "moveToTaskQueue", callback := some "cbA" }).taskQueue = ["old", "cbA"] := by
  have h := c4_amended initialState
    { initialState with webAPIs := [⟨"Timer: 0ms", "cbB"⟩], taskQueue := ["old"] }
    { action := "moveToTaskQueue", callback := some "cbA" } (by decide)
  exact ⟨by rw [h.1]; decide, by rw [h.2]; decide⟩

/-- Claim C6, counterexample: an input that registers a timer, clears it,
and re-registers the same binding still yields a `moveToTaskQueue` step for
the cancelled first registration (source line 1) as well as for the final
one (source line 3). -/
theorem c6_counterexample :
    promoteLines cancellationInput = [some 1, some 3] ∧
    countAction "moveToTaskQueue" (parseSteps cancellationInput) = 2 := by
  refine ⟨by decide, by decide⟩

/-- Claim C7, counterexample: applying a `removeFromStack` step to the empty
initial state is a complete no-op — the replay state is returned unchanged,
with no error of any kind. -/
theorem c7_counterexample :
    executeStep initialState initialState bareRemoveStep = initialState := by
  decide

/-- Claim C7, amended: a `removeFromStack` step applied when the modeled
stack is empty is a silent no-op that leaves the stack empty
(`slice(0, -1)` of an empty array); `executeStep` is total and never fails. -/
theorem c7_amended (snapshot s : ModelState) (step : Step)
    (hs : s.callStack = []) (h : step.action = "removeFromStack") :
    (executeStep snapshot s step).callStack = [] := by
  unfold executeStep
  rw [h]
  cases step.line <;> cases step.explanation <;> simp [hs] <;> split <;> simp [hs]

/-- Witness for the amended C7 at a concrete state and step. -/
theorem c7_amended_witness :
    (executeStep initialState initialState
        { action := "removeFromStack", explanation := some "Removed from call stack" }).callStack
      = [] :=
  c7_amended initialState initialState
    { action := "removeFromStack", explanation := some "Removed from call stack" }
    (by decide) (by decide)

/-- Claim C8: whenever the compiler produces zero steps, `parseCustomCode`
fails with the human-readable `noPatternMsg` reason and `runCustomCode`
leaves the previously stored custom example unchanged while reporting an
error. -/
theorem c8_no_pattern (code : String) (ex : Example) (h : parseSteps code = []) :
    parseCustomCode code = Except.error noPatternMsg ∧
    (runCustomCode code ex).1 = ex ∧ (runCustomCode code ex).2.isSome = true := by
  have hp : parseCustomCode code = Except.error noPatternMsg := by
    simp [parseCustomCode, h]
  refine ⟨hp, ?_, ?_⟩ <;>
    (unfold runCustomCode; rw [hp]; split <;> rfl)

/-- Witness for C8: a single comment line produces zero steps, fails to
compile, and leaves the stored custom example untouched. -/
theorem c8_no_pattern_witness :
    parseCustomCode commentOnlyInput = Except.error noPatternMsg ∧
    (runCustomCode commentOnlyInput defaultCustomExample).1 = defaultCustomExample ∧
    (runCustomCode commentOnlyInput defaultCustomExample).2.isSome = true :=
  c8_no_pattern commentOnlyInput defaultCustomExample (by decide)

/-- Claim C9: replay is not a pure function of the step sequence and the
index.  Replaying the first 8 steps of the compiled `promiseTimerInput`
twice — the second time with the component state left over from the first
replay as the render snapshot — drains the microtask queue only the second
time, because the `processMicroTasks` guard reads the stale pre-replay
queue length. -/
theorem c9_replay_state_leak :
    (goToStep initialState (parseSteps promiseTimerInput) 8).microTaskQueue
      = ["promise callback"] ∧
    (goToStep (goToStep initialState (parseSteps promiseTimerInput) 8)
        (parseSteps promiseTimerInput) 8).microTaskQueue = [] ∧
    ¬ goToStep (goToStep initialState (parseSteps promiseTimerInput) 8)
        (parseSteps promiseTimerInput) 8
      = goToStep initialState (parseSteps promiseTimerInput) 8 := by
  refine ⟨by decide, by decide, by decide⟩

/-- Claim C10: a `moveToTaskQueue` step applied with an empty deferred
registry does not fail: the registry stays empty and the step's own
callback is still appended to the macrotask queue. -/
theorem c10_promote_with_empty_registry (snapshot s : ModelState) (step : Step) (c : String)
    (hw : s.webAPIs = []) (ha : step.action = "moveToTaskQueue") (hc : step.callback = some c) :
    (executeStep snapshot s step).webAPIs = [] ∧
    (executeStep snapshot s step).taskQueue = s.taskQueue ++ [c] := by
  unfold executeStep
  rw [ha]
  cases step.line <;> cases step.explanation <;> simp [hw, hc] <;> split <;> simp [hw, hc]

/-- Witness for C10 at a concrete state and step. -/
theorem c10_promote_with_empty_registry_witness :
    (executeStep initialState initialState
        { action := "moveToTaskQueue", callback := some "cb" }).webAPIs = [] ∧
    (executeStep initialState initialState
        { action := "moveToTaskQueue", callback := some "cb" }).taskQueue = ["cb"] := by
  have h := c10_promote_with_empty_registry initialState initialState
    { action := "moveToTaskQueue", callback := some "cb" } "cb" (by decide) (by decide) (by decide)
  exact ⟨h.1, h.2⟩

/-- The Boolean comparator agrees with `taskRel`. -/
theorem taskLe_iff (a b : PendingTask) : taskLe a b = true ↔ taskRel a b := by
  simp [taskLe, taskRel]

/-- Totality of the comparator. -/
theorem taskRel_of_not {a b : PendingTask} (h : ¬ taskRel a b) : taskRel b a := by
  unfold taskRel at *
  omega

/-- Transitivity of the comparator. -/
theorem taskRel_trans {a b c : PendingTask} (h1 : taskRel a b) (h2 : taskRel b c) :
    taskRel a c := by
  unfold taskRel at *
  omega

/-- Membership in an insertion. -/
theorem mem_orderedInsertTask (a x : PendingTask) :
    ∀ l, x ∈ orderedInsertTask a l ↔ x = a ∨ x ∈ l := by
  intro l
  induction l with
  | nil => simp [orderedInsertTask]
  | cons b l ih =>
    unfold orderedInsertTask
    split
    · simp [List.mem_cons]
    · simp only [List.mem_cons, ih]
      tauto

/-- Insertion preserves sortedness. -/
theorem pairwise_orderedInsertTask (a : PendingTask) :
    ∀ l, List.Pairwise taskRel l → List.Pairwise taskRel (orderedInsertTask a l) := by
  intro l
  induction l with
  | nil =>
    intro _
    simp [orderedInsertTask]
  | cons b l ih =>
    intro h
    rw [List.pairwise_cons] at h
    unfold orderedInsertTask
    split
    · rename_i hle
      rw [taskLe_iff] at hle
      rw [List.pairwise_cons]
      refine ⟨?_, List.pairwise_cons.mpr h⟩
      intro x hx
      rcases List.mem_cons.mp hx with rfl | hx
      · exact hle
      · exact taskRel_trans hle (h.1 x hx)
    · rename_i hle
      have hba : taskRel b a := taskRel_of_not (fun hc => hle ((taskLe_iff a b).mpr hc))
      rw [List.pairwise_cons]
      refine ⟨?_, ih h.2⟩
      intro x hx
      rcases (mem_orderedInsertTask a x l).mp hx with rfl | hx
      · exact hba
      · exact h.1 x hx

/-- The sorted bucket is pairwise ordered by `(delay, line)`. -/
theorem pairwise_sortTasks : ∀ l, List.Pairwise taskRel (sortTasks l) := by
  intro l
  induction l with
  | nil => simp [sortTasks]
  | cons a l ih => exact pairwise_orderedInsertTask a _ ih

/-- Insertion grows the length by one. -/
theorem length_orderedInsertTask (a : PendingTask) :
    ∀ l, (orderedInsertTask a l).length = l.length + 1 := by
  intro l
  induction l with
  | nil => rfl
  | cons b l ih =>
    unfold orderedInsertTask
    split
    · simp
    · simp [ih]

/-- Sorting preserves the length. -/
theorem length_sortTasks : ∀ l, (sortTasks l).length = l.length := by
  intro l
  induction l with
  | nil => rfl
  | cons a l ih =>
    unfold sortTasks
    rw [length_orderedInsertTask, ih]
    rfl

/-- Body-closing never touches the emitted steps. -/
theorem processActiveClose_steps (st : ScanState) (ac : ActiveCallback) (d : Int) :
    (processActiveClose st ac d).steps = st.steps := by
  unfold processActiveClose
  split
  · split <;> rfl
  · rfl

/-- Body collection never touches the emitted steps. -/
theorem processActive_steps (st : ScanState) (ac : ActiveCallback) (tl : List Char) :
    (processActive st ac tl).steps = st.steps := by
  unfold processActive
  exact processActiveClose_steps ..

/-- The `setTimeout` bucket update never touches the emitted steps. -/
theorem setTimeoutBlock_steps (st : ScanState) (tl : List Char) (n : Nat) :
    (setTimeoutBlock st tl n).steps = st.steps := by
  unfold setTimeoutBlock
  split
  · split <;> rfl
  · rfl

/-- The promise bucket update never touches the emitted steps. -/
theorem promiseBlock_steps (st : ScanState) (tl : List Char) (n : Nat) :
    (promiseBlock st tl n).steps = st.steps := by
  unfold promiseBlock
  split
  · split <;> rfl
  · rfl

/-- Synchronous-log triples only carry scan actions. -/
theorem syncLogSteps_emitted (tl : List Char) (n : Nat) :
    ∀ s ∈ syncLogSteps tl n, scanEmitted s := by
  intro s hs
  simp only [syncLogSteps, List.mem_cons, List.not_mem_nil, or_false] at hs
  rcases hs with rfl | rfl | rfl <;> simp [scanEmitted]

/-- `setTimeout` registration triples only carry scan actions. -/
theorem setTimeoutSteps_emitted (d : Nat) (cb : String) (n : Nat) :
    ∀ s ∈ setTimeoutSteps d cb n, scanEmitted s := by
  intro s hs
  simp only [setTimeoutSteps, List.mem_cons, List.not_mem_nil, or_false] at hs
  rcases hs with rfl | rfl | rfl <;> simp [scanEmitted]

/-- Promise registration triples only carry scan actions. -/
theorem promiseSteps_emitted (cb : String) (n : Nat) :
    ∀ s ∈ promiseSteps cb n, scanEmitted s := by
  intro s hs
  simp only [promiseSteps, List.mem_cons, List.not_mem_nil, or_false] at hs
  rcases hs with rfl | rfl | rfl <;> simp [scanEmitted]

/-- One scan iteration either leaves the emitted steps unchanged or appends
one of the three registration step triples. -/
theorem processLine_steps_shape (st : ScanState) (p : Nat × List Char) :
    (processLine st p).steps = st.steps ∨
    (∃ tl n, (processLine st p).steps = st.steps ++ syncLogSteps tl n) ∨
    (∃ d cb n, (processLine st p).steps = st.steps ++ setTimeoutSteps d cb n) ∨
    (∃ cb n, (processLine st p).steps = st.steps ++ promiseSteps cb n) := by
  unfold processLine
  split
  · left
    exact processActive_steps ..
  · unfold processTop
    split
    · left; rfl
    · split
      · right; left
        exact ⟨_, _, rfl⟩
      · split
        · right; right; left
          exact ⟨delayOf (jsTrim p.2), setTimeoutCallbackOf (jsTrim p.2), p.1 + 1,
            by rw [setTimeoutBlock_steps]⟩
        · split
          · right; right; right
            exact ⟨promiseCallbackOf (jsTrim p.2), p.1 + 1, by rw [promiseBlock_steps]⟩
          · left; rfl

/-- One scan iteration preserves the scan-action invariant. -/
theorem processLine_emitted (st : ScanState) (p : Nat × List Char)
    (h : ∀ s ∈ st.steps, scanEmitted s) :
    ∀ s ∈ (processLine st p).steps, scanEmitted s := by
  rcases processLine_steps_shape st p with he | ⟨tl, n, he⟩ | ⟨d, cb, n, he⟩ | ⟨cb, n, he⟩ <;>
    rw [he] <;> intro s hs
  · exact h s hs
  · rcases List.mem_append.mp hs with hs | hs
    · exact h s hs
    · exact syncLogSteps_emitted tl n s hs
  · rcases List.mem_append.mp hs with hs | hs
    · exact h s hs
    · exact setTimeoutSteps_emitted d cb n s hs
  · rcases List.mem_append.mp hs with hs | hs
    · exact h s hs
    · exact promiseSteps_emitted cb n s hs

/-- Every step emitted by the line scan carries a scan action; in particular
the scan itself never emits `moveToTaskQueue` or `processMicroTasks`. -/
theorem scanLines_emitted (lines : List (List Char)) :
    ∀ s ∈ (scanLines lines).steps, scanEmitted s := by
  have key : ∀ (ps : List (Nat × List Char)) (st : ScanState),
      (∀ s ∈ st.steps, scanEmitted s) →
      ∀ s ∈ (ps.foldl processLine st).steps, scanEmitted s := by
    intro ps
    induction ps with
    | nil => intro st h; exact h
    | cons p ps ih => intro st h; exact ih (processLine st p) (processLine_emitted st p h)
  refine key _ _ ?_
  intro s hs
  simp at hs

/-- Microtask execution bodies only push, log and pop. -/
theorem microBody_actions (t : PendingMicro) :
    ∀ s ∈ microBody t,
      s.action = "addToStack" ∨ s.action = "log" ∨ s.action = "removeFromStack" := by
  intro s hs
  unfold microBody at hs
  split at hs
  · simp only [List.mem_cons, List.not_mem_nil, or_false] at hs
    rcases hs with rfl | rfl <;> simp
  · simp only [List.mem_flatten, List.mem_map] at hs
    obtain ⟨l, ⟨m, _, rfl⟩, hsl⟩ := hs
    simp only [List.mem_cons, List.not_mem_nil, or_false] at hsl
    rcases hsl with rfl | rfl | rfl <;> simp

/-- Macrotask execution bodies only push, log and pop. -/
theorem taskBody_actions (t : PendingTask) :
    ∀ s ∈ taskBody t,
      s.action = "addToStack" ∨ s.action = "log" ∨ s.action = "removeFromStack" := by
  intro s hs
  unfold taskBody at hs
  split at hs
  · simp only [List.mem_cons, List.not_mem_nil, or_false] at hs
    rcases hs with rfl | rfl <;> simp
  · simp only [List.mem_flatten, List.mem_map] at hs
    obtain ⟨l, ⟨m, _, rfl⟩, hsl⟩ := hs
    simp only [List.mem_cons, List.not_mem_nil, or_false] at hsl
    rcases hsl with rfl | rfl | rfl <;> simp

/-- The microtask section never promotes a macrotask. -/
theorem microSection_not_promote (ms : List PendingMicro) :
    ∀ s ∈ microSection ms, s.action ≠ "moveToTaskQueue" := by
  intro s hs
  unfold microSection at hs
  split at hs
  · simp at hs
  · rcases List.mem_append.mp hs with hs | hs
    · simp only [List.mem_cons, List.not_mem_nil, or_false] at hs
      rcases hs with rfl | rfl <;> simp
    · simp only [List.mem_flatten, List.mem_map] at hs
      obtain ⟨l, ⟨m, _, rfl⟩, hsl⟩ := hs
      rcases microBody_actions m s hsl with h | h | h <;> simp [h]

/-- One promoted-task block never drains the microtask queue. -/
theorem taskBlock_not_drain (t : PendingTask) :
    ∀ s ∈ taskBlock t, s.action ≠ "processMicroTasks" := by
  intro s hs
  unfold taskBlock at hs
  rcases List.mem_cons.mp hs with rfl | hs
  · simp [promoteStepOf]
  · rcases List.mem_cons.mp hs with rfl | hs
    · simp
    · rcases taskBody_actions t s hs with h | h | h <;> simp [h]

/-- The macrotask section never drains the microtask queue. -/
theorem macroSection_not_drain (ts : List PendingTask) :
    ∀ s ∈ macroSection ts, s.action ≠ "processMicroTasks" := by
  intro s hs
  unfold macroSection at hs
  split at hs
  · simp at hs
  · simp only [List.mem_flatten, List.mem_map] at hs
    obtain ⟨l, ⟨t, _, rfl⟩, hsl⟩ := hs
    exact taskBlock_not_drain t s hsl

/-- Filtering one promoted-task block for promotions yields exactly its
promotion step. -/
theorem taskBlock_filter_promote (t : PendingTask) :
    (taskBlock t).filter (fun s => s.action == "moveToTaskQueue") = [promoteStepOf t] := by
  unfold taskBlock
  rw [List.filter_cons, List.filter_cons]
  have h1 : ((promoteStepOf t).action == "moveToTaskQueue") = true := by
    simp [promoteStepOf]
  have h2 : (taskBody t).filter (fun s => s.action == "moveToTaskQueue") = [] := by
    rw [List.filter_eq_nil_iff]
    intro s hs
    rcases taskBody_actions t s hs with h | h | h <;> simp [h]
  simp [h1, h2]

/-- Filtering a flattened map whose blocks each filter to a singleton. -/
theorem filter_flatten_map {α : Type} (g : α → Step) (f : α → List Step) (p : Step → Bool)
    (hf : ∀ x, (f x).filter p = [g x]) :
    ∀ l : List α, ((l.map f).flatten).filter p = l.map g := by
  intro l
  induction l with
  | nil => rfl
  | cons a l ih =>
    simp only [List.map_cons, List.flatten_cons, List.filter_append, hf, ih]
    rfl

/-- The promotion steps of the macrotask section are exactly the sorted
bucket's promotions, in order. -/
theorem macroSection_filter_promote (ts : List PendingTask) :
    (macroSection ts).filter (fun s => s.action == "moveToTaskQueue")
      = (sortTasks ts).map promoteStepOf := by
  unfold macroSection
  split
  · rename_i hE
    rw [List.isEmpty_iff] at hE
    subst hE
    rfl
  · exact filter_flatten_map promoteStepOf taskBlock _ taskBlock_filter_promote (sortTasks ts)

/-- The fixed fetch tail contains no promotion step. -/
theorem fetchTail_not_promote :
    ∀ s ∈ fetchTail, s.action ≠ "moveToTaskQueue" := by
  decide

/-- The fetch head contains no microtask enqueue. -/
theorem fetchHead_no_micro (url : String) :
    ∀ s ∈ fetchHead url, s.action ≠ "addToMicroTask" := by
  intro s hs
  simp only [fetchHead, List.mem_cons, List.not_mem_nil, or_false] at hs
  rcases hs with rfl | rfl | rfl <;> simp

/-- The fetch synchronous-log triples contain no microtask enqueue. -/
theorem fetchSyncSteps_no_micro (lines : List (List Char)) :
    ∀ s ∈ fetchSyncSteps lines, s.action ≠ "addToMicroTask" := by
  intro s hs
  unfold fetchSyncSteps at hs
  simp only [List.mem_flatten, List.mem_map] at hs
  obtain ⟨l, ⟨m, _, rfl⟩, hsl⟩ := hs
  simp only [List.mem_cons, List.not_mem_nil, or_false] at hsl
  rcases hsl with rfl | rfl | rfl <;> simp

/-- In a concatenation where the first part lacks action `a2` and the second
part lacks action `a1`, any index holding `a1` precedes any index holding
`a2`. -/
theorem act_index_lt (A B : List Step) (a1 a2 : String)
    (hA : ∀ s ∈ A, s.action ≠ a2) (hB : ∀ s ∈ B, s.action ≠ a1)
    (i j : Nat) (hi : i < (A ++ B).length) (hj : j < (A ++ B).length)
    (h1 : ((A ++ B).get ⟨i, hi⟩).action = a1)
    (h2 : ((A ++ B).get ⟨j, hj⟩).action = a2) : i < j := by
  have hiA : i < A.length := by
    by_contra hc
    push_neg at hc
    have hm : (A ++ B).get ⟨i, hi⟩ ∈ B := by
      rw [List.get_eq_getElem, List.getElem_append_right hc]
      exact List.getElem_mem _
    exact hB _ hm h1
  have hjA : A.length ≤ j := by
    by_contra hc
    push_neg at hc
    have hm : (A ++ B).get ⟨j, hj⟩ ∈ A := by
      rw [List.get_eq_getElem, List.getElem_append_left hc]
      exact List.getElem_mem _
    exact hA _ hm h2
  omega

/-- Index-ordering transported along a decomposition of the step list. -/
theorem act_index_lt_of_eq (L A B : List Step) (hL : L = A ++ B) (a1 a2 : String)
    (hA : ∀ s ∈ A, s.action ≠ a2) (hB : ∀ s ∈ B, s.action ≠ a1)
    (i j : Nat) (hi : i < L.length) (hj : j < L.length)
    (h1 : (L.get ⟨i, hi⟩).action = a1) (h2 : (L.get ⟨j, hj⟩).action = a2) : i < j := by
  subst hL
  exact act_index_lt A B a1 a2 hA hB i j hi hj h1 h2

/-- Scan actions exclude `moveToTaskQueue`. -/
theorem scanEmitted_ne_promote {s : Step} (h : scanEmitted s) :
    s.action ≠ "moveToTaskQueue" := by
  rcases h with h | h | h | h | h <;> simp [h]

/-- Decomposition of a non-fetch compile: scan steps, then the microtask
section, then the macrotask section. -/
theorem parseSteps_nonfetch (code : String) (hf : hasFetchB code = false) :
    parseSteps code
      = ((scanLines (jsLines code)).steps
          ++ microSection (scanLines (jsLines code)).pendingMicrotasks)
        ++ macroSection (scanLines (jsLines code)).pendingTasks := by
  rw [parseSteps, if_neg (by simp [hf])]
  exact (List.append_assoc _ _ _).symm

/-- Decomposition of a fetch compile: head, synchronous logs and the single
promotion, then the fixed tail. -/
theorem parseSteps_fetch (code : String) (hf : hasFetchB code = true) :
    parseSteps code
      = (fetchHead ((urlMatch (jsTrim code.data)).getD "API endpoint")
          ++ fetchSyncSteps (jsLines code) ++ [fetchPromoteStep]) ++ fetchTail := by
  rw [parseSteps, if_pos hf]
  rfl

/-- The scan steps contain no promotion, as a filter equation. -/
theorem scan_filter_promote_nil (code : String) :
    ((scanLines (jsLines code)).steps).filter (fun s => s.action == "moveToTaskQueue") = [] := by
  rw [List.filter_eq_nil_iff]
  intro s hs
  have h := scanEmitted_ne_promote (scanLines_emitted _ s hs)
  simpa using h

/-- The microtask section contains no promotion, as a filter equation. -/
theorem micro_filter_promote_nil (ms : List PendingMicro) :
    (microSection ms).filter (fun s => s.action == "moveToTaskQueue") = [] := by
  rw [List.filter_eq_nil_iff]
  intro s hs
  have h := microSection_not_promote ms s hs
  simpa using h

/-- The promotion steps of a whole non-fetch compile are exactly the sorted
bucket's promotions. -/
theorem parseSteps_filter_promote (code : String) (hf : hasFetchB code = false) :
    (parseSteps code).filter (fun s => s.action == "moveToTaskQueue")
      = (sortTasks (scanTasks code)).map promoteStepOf := by
  rw [parseSteps_nonfetch code hf, List.filter_append, List.filter_append,
    scan_filter_promote_nil, micro_filter_promote_nil, macroSection_filter_promote]
  rfl

/-- Claim C2, counterexample: in the fetch-mode compile of
`fetch('/api/data')` a microtask is enqueued at index 4 while the modeled
stack is empty, a `checkEventLoop` (DrainOneMacrotaskAndCycle) step occurs
later at index 5 — also with an empty stack — and no `processMicroTasks`
drain occurs anywhere before index 6, so the enqueued microtask is not
drained strictly before that later macrotask-cycle step. -/
theorem c2_counterexample :
    ((parseSteps fetchOnlyInput).map (fun s => s.action)).take 7
      = ["addToStack", "addToWebAPI", "removeFromStack", "moveToTaskQueue",
         "addToMicroTask", "checkEventLoop", "processMicroTasks"] ∧
    (goToStep initialState (parseSteps fetchOnlyInput) 4).callStack = [] ∧
    (goToStep initialState (parseSteps fetchOnlyInput) 5).callStack = [] ∧
    ((parseSteps fetchOnlyInput).take 6).all (fun s => s.action != "processMicroTasks") = true := by
  refine ⟨by decide, by decide, by decide, by decide⟩

/-- Claim C2, amended: in every line-scan compile each `processMicroTasks`
drain step precedes every `moveToTaskQueue` promotion step, and in every
fetch compile the single promotion precedes every microtask enqueue — so no
promotion ever intervenes between a microtask's enqueue and its drain.
(`checkEventLoop` queue-check steps may precede the drain, the compiler
emits a single drain for the whole microtask batch, and a registration
whose callback body never closes is never drained.) -/
theorem c2_amended_ordering (code : String) (i j : Nat)
    (hi : i < (parseSteps code).length) (hj : j < (parseSteps code).length) :
    (hasFetchB code = false →
      ((parseSteps code).get ⟨i, hi⟩).action = "processMicroTasks" →
      ((parseSteps code).get ⟨j, hj⟩).action = "moveToTaskQueue" → i < j)
  ∧ (hasFetchB code = true →
      ((parseSteps code).get ⟨i, hi⟩).action = "moveToTaskQueue" →
      ((parseSteps code).get ⟨j, hj⟩).action = "addToMicroTask" → i < j) := by
  constructor
  · intro hf h1 h2
    refine act_index_lt_of_eq (parseSteps code)
      ((scanLines (jsLines code)).steps
        ++ microSection (scanLines (jsLines code)).pendingMicrotasks)
      (macroSection (scanLines (jsLines code)).pendingTasks)
      (parseSteps_nonfetch code hf) "processMicroTasks" "moveToTaskQueue"
      ?_ ?_ i j hi hj h1 h2
    · intro s hs
      rcases List.mem_append.mp hs with hs | hs
      · exact scanEmitted_ne_promote (scanLines_emitted _ s hs)
      · exact microSection_not_promote _ s hs
    · exact macroSection_not_drain _
  · intro hf h1 h2
    refine act_index_lt_of_eq (parseSteps code)
      (fetchHead ((urlMatch (jsTrim code.data)).getD "API endpoint")
        ++ fetchSyncSteps (jsLines code) ++ [fetchPromoteStep])
      fetchTail (parseSteps_fetch code hf) "moveToTaskQueue" "addToMicroTask"
      ?_ ?_ i j hi hj h1 h2
    · intro s hs
      rcases List.mem_append.mp hs with hs | hs
      · rcases List.mem_append.mp hs with hs | hs
        · exact fetchHead_no_micro _ s hs
        · exact fetchSyncSteps_no_micro _ s hs
      · rcases List.mem_cons.mp hs with rfl | hs
        · simp [fetchPromoteStep]
        · simp at hs
    · exact fetchTail_not_promote

/-- Witness for the amended C2: in the compiled `promiseTimerInput` the
drain at index 7 precedes the promotion at index 11. -/
theorem c2_amended_ordering_witness :
    hasFetchB promiseTimerInput = false ∧ 7 < 11 :=
  ⟨by decide,
    (c2_amended_ordering promiseTimerInput 7 11 (by decide) (by decide)).1
      (by decide) (by decide) (by decide)⟩

/-- Claim C5: the promotion steps of every line-scan compile appear in
exactly the order of the bucket sorted by `(delay ascending, source-line
ascending)`; in particular every delay-0 registration's promotion precedes
every delay-100 registration's promotion regardless of source order, and
between equal delays the source line never decreases. -/
theorem c5_delay_ordering (code : String) (hf : hasFetchB code = false) :
    promoteLines code = (sortTasks (scanTasks code)).map (fun t => some t.line)
  ∧ (∀ i j (hi : i < (sortTasks (scanTasks code)).length)
        (hj : j < (sortTasks (scanTasks code)).length),
      ((sortTasks (scanTasks code)).get ⟨i, hi⟩).delay = 0 →
      ((sortTasks (scanTasks code)).get ⟨j, hj⟩).delay = 100 → i < j)
  ∧ (∀ i j (hi : i < (sortTasks (scanTasks code)).length)
        (hj : j < (sortTasks (scanTasks code)).length), i < j →
      ((sortTasks (scanTasks code)).get ⟨i, hi⟩).delay
        = ((sortTasks (scanTasks code)).get ⟨j, hj⟩).delay →
      ((sortTasks (scanTasks code)).get ⟨i, hi⟩).line
        ≤ ((sortTasks (scanTasks code)).get ⟨j, hj⟩).line) := by
  have hp := pairwise_sortTasks (scanTasks code)
  rw [List.pairwise_iff_get] at hp
  refine ⟨?_, ?_, ?_⟩
  · rw [promoteLines, parseSteps_filter_promote code hf, List.map_map]
    rfl
  · intro i j hi hj d0 d100
    by_contra hc
    push_neg at hc
    rcases Nat.lt_or_ge j i with hji | hij
    · have hr := hp ⟨j, hj⟩ ⟨i, hi⟩ hji
      rcases hr with hr | ⟨hr, _⟩ <;> omega
    · have hij2 : i = j := by omega
      subst hij2
      omega
  · intro i j hi hj hij hdelay
    have hr := hp ⟨i, hi⟩ ⟨j, hj⟩ hij
    rcases hr with hr | ⟨_, hr⟩ <;> omega

/-- Witness for C5: compiling delays `100` then `0` promotes the source-line
2 (delay 0) registration first. -/
theorem c5_delay_ordering_witness :
    promoteLines delayOrderInput = [some 2, some 1] ∧ (0 : Nat) < 1 := by
  have h := c5_delay_ordering delayOrderInput (by decide)
  refine ⟨h.1.trans (by decide), ?_⟩
  exact h.2.1 0 1 (by decide) (by decide) (by decide) (by decide)

/-- Claim C6, amended: the line-scan compiler performs no cancellation
tracking at all — its output contains exactly one `moveToTaskQueue` step per
recognized deferred-timer registration, cancelled registrations included
(`clearTimeout` lines match no pattern and are silently skipped). -/
theorem c6_amended (code : String) (hf : hasFetchB code = false) :
    countAction "moveToTaskQueue" (parseSteps code) = (scanTasks code).length := by
  rw [countAction, List.countP_eq_length_filter, parseSteps_filter_promote code hf,
    List.length_map, length_sortTasks]

/-- Witness for the amended C6 at the cancellation input: two registrations,
two promotions. -/
theorem c6_amended_witness :
    countAction "moveToTaskQueue" (parseSteps cancellationInput) = 2 ∧
    (scanTasks cancellationInput).length = 2 :=
  ⟨(c6_amended cancellationInput (by decide)).trans (by decide), by decide⟩
